import Mathlib

/-!
Verification of the elastic-property-mcp repository core against its
specification. The Python sources src/elastic_mcp_server.py and
src/ingest_properties.py are shallowly embedded below: pure fragments become
Lean functions, the index store and HTTP boundaries become explicit inputs,
and machine-level details that the claims do not touch (logging, result
formatting) are omitted.
-/

namespace ElasticMcp

/- ------------------------------------------------------------------ -/
/- Parameter scanning (src/elastic_mcp_server.py lines 69 and 70).      -/
/- The Python code runs re.findall over the pattern
   open-brace open-brace whitespace* identifier whitespace* close-brace
   close-brace, capturing the identifier, then deduplicates with
   list(set(...)). The scanner below replicates leftmost non-overlapping
   matching of that pattern over a list of characters.                  -/
/- ------------------------------------------------------------------ -/

/-- Whitespace class of the regex escape backslash-s over the ASCII range:
space, tab, newline, carriage return, vertical tab, form feed. -/
def isWs (c : Char) : Bool :=
  c = ' ' || c = '\t' || c = '\n' || c = '\r' || c = '\x0b' || c = '\x0c'

/-- Identifier class of the regex character set a-z, A-Z, 0-9 and
underscore. -/
def isIdChar (c : Char) : Bool :=
  ('a' ≤ c && c ≤ 'z') || ('A' ≤ c && c ≤ 'Z') || ('0' ≤ c && c ≤ '9') || c = '_'

/-- Consume two copies of the character c from the front of the list,
returning the remainder, or fail. -/
def expect2 (c : Char) (l : List Char) : Option (List Char) :=
  match l with
  | a :: b :: rest => if a = c && b = c then some rest else none
  | _ => none

/-- Try to match the placeholder pattern at the head of the list: two open
braces, optional whitespace, a nonempty identifier, optional whitespace, two
close braces. Returns the captured identifier and the remainder after the
match. Greedy matching of the regex is deterministic here because the
whitespace class, the identifier class and the brace characters are pairwise
disjoint. -/
def matchAt (l : List Char) : Option (List Char × List Char) :=
  match expect2 '{' l with
  | none => none
  | some rest =>
    match (rest.dropWhile isWs).takeWhile isIdChar with
    | [] => none
    | i0 :: irest =>
      match expect2 '}' (((rest.dropWhile isWs).dropWhile isIdChar).dropWhile isWs) with
      | none => none
      | some post => some (i0 :: irest, post)

/-- Fuelled scanner: at each position try the placeholder pattern; on a match
emit the captured identifier and continue after the match, otherwise advance
one character. The fuel only serves termination; it is always instantiated
with the length of the input. -/
def findallAux : Nat → List Char → List (List Char)
  | 0, _ => []
  | _ + 1, [] => []
  | fuel + 1, c :: cs =>
    match matchAt (c :: cs) with
    | some (i, p) => i :: findallAux fuel p
    | none => findallAux fuel cs

/-- All captured identifiers of the placeholder pattern, in match order,
replicating re.findall on the pattern of line 69. -/
def findall (l : List Char) : List (List Char) := findallAux l.length l

/-- Line 70 of src/elastic_mcp_server.py: parameters = list(set(matches)).
Deduplicated list of captured identifiers. -/
def resolveParams (l : List Char) : List (List Char) := (findall l).dedup

/-- A list consisting of whitespace characters only. -/
def WsRun (w : List Char) : Prop := ∀ c ∈ w, isWs c = true

/-- A nonempty list consisting of identifier characters only. -/
def IdRun (n : List Char) : Prop := n ≠ [] ∧ ∀ c ∈ n, isIdChar c = true

/-- Declarative reading of the claim: the name n occurs somewhere in s inside
a placeholder of the form two open braces, whitespace, n, whitespace, two
close braces. -/
def IsPlaceholderOcc (s n : List Char) : Prop :=
  ∃ pre w1 w2 post, WsRun w1 ∧ WsRun w2 ∧ IdRun n ∧
    s = pre ++ '{' :: '{' :: (w1 ++ (n ++ (w2 ++ '}' :: '}' :: post)))

/- ------------------------------------------------------------------ -/
/- Template fetch and parameter discovery                               -/
/- (src/elastic_mcp_server.py lines 47 to 92).                          -/
/- ------------------------------------------------------------------ -/

/-- Line 53: keep printable characters plus newline, carriage return and tab.
Python printability of a character is a property of the runtime Unicode
tables, so it enters the model as the boundary predicate isPrint. -/
def sanitizeSource (isPrint : Char → Bool) (s : String) : String :=
  String.mk (s.data.filter (fun c => isPrint c || c = '\n' || c = '\r' || c = '\t'))

/-- Lines 47 to 57: get_template_script. The store fetch is the boundary
input: none models any exception from get_script (caught, logged, and turned
into a Python None), some src models a successful fetch of the script source.
A fetched source is sanitized before being returned. -/
def getTemplateScript (isPrint : Char → Bool) (fetched : Option String) : Option String :=
  fetched.map (sanitizeSource isPrint)

/-- Observable outcome of the get_properties_template_params tool: either the
fixed error text of line 66 or a parameter listing built from the
deduplicated scan of the template source. -/
inductive TemplateParamsOut where
  | errorText
  | params (names : List (List Char))
deriving DecidableEq

/-- Lines 60 to 92: get_properties_template_params. The Python guard
if not source is true both when the fetch failed (None) and when the
sanitized source is the empty string. -/
def getPropertiesTemplateParams (isPrint : Char → Bool) (fetched : Option String) :
    TemplateParamsOut :=
  match getTemplateScript isPrint fetched with
  | none => TemplateParamsOut.errorText
  | some source =>
    if source = "" then TemplateParamsOut.errorText
    else TemplateParamsOut.params (resolveParams source.data)

/- ------------------------------------------------------------------ -/
/- search_template parameter normalization                              -/
/- (src/elastic_mcp_server.py lines 173 to 218).                        -/
/- ------------------------------------------------------------------ -/

/-- Python values that appear in the params dictionary. -/
inductive PVal where
  | vStr (s : String)
  | vFloat (q : ℚ)
  | vInt (n : Int)
deriving DecidableEq

/-- Lines 193 to 196 and 202: the distance value, as a string, after the
default injection and before the unit suffix is appended. When latitude and
longitude are supplied and distance is not, the code assigns the string 25;
otherwise a supplied integer distance is formatted by the f-string. -/
def distanceParam (latitude longitude : Option ℚ) (distance : Option Int) : Option String :=
  if latitude.isSome && longitude.isSome && distance.isNone then some "25"
  else distance.map (fun d => toString d)

/-- Lines 198 to 211: the params dictionary literal, in insertion order, with
each optional value still wrapped in Option. The required query argument of
the tool is bound under the key query from original_query; the separate query
argument of the function is never read. -/
def rawParams (original_query : String) (query : String)
    (latitude longitude : Option ℚ) (distance : Option Int)
    (tax : Option ℚ) (bedrooms : Option Int)
    (home_price_min home_price_max : Option ℚ) (bathrooms : Option ℚ)
    (square_footage : Option Int) (property_features : Option String)
    (maintenance : Option ℚ) : List (String × Option PVal) :=
  [("query", some (PVal.vStr original_query)),
   ("latitude", latitude.map PVal.vFloat),
   ("longitude", longitude.map PVal.vFloat),
   ("distance", (distanceParam latitude longitude distance).map
      (fun s => PVal.vStr (s ++ "mi"))),
   ("tax", tax.map PVal.vFloat),
   ("bedrooms", bedrooms.map PVal.vInt),
   ("home_price_min", home_price_min.map PVal.vFloat),
   ("home_price_max", home_price_max.map PVal.vFloat),
   ("bathrooms", bathrooms.map PVal.vFloat),
   ("square_footage", square_footage.map PVal.vInt),
   ("property_features", property_features.map PVal.vStr),
   ("maintenance", maintenance.map PVal.vFloat)]

/-- Line 214: the dictionary comprehension that removes None values. -/
def pruneNone (l : List (String × Option PVal)) : List (String × PVal) :=
  l.filterMap (fun kv => kv.2.map (fun v => (kv.1, v)))

/-- Lines 193 to 214 of search_template: the parameter set that is passed to
render_search_template and search_template, after default-distance injection,
unit formatting and None pruning. -/
def searchTemplateParams (original_query : String) (query : String)
    (latitude longitude : Option ℚ) (distance : Option Int)
    (tax : Option ℚ) (bedrooms : Option Int)
    (home_price_min home_price_max : Option ℚ) (bathrooms : Option ℚ)
    (square_footage : Option Int) (property_features : Option String)
    (maintenance : Option ℚ) : List (String × PVal) :=
  pruneNone (rawParams original_query query latitude longitude distance tax bedrooms
    home_price_min home_price_max bathrooms square_footage property_features maintenance)

/-- The key set of the bound parameter dictionary. -/
def paramKeys (original_query : String) (query : String)
    (latitude longitude : Option ℚ) (distance : Option Int)
    (tax : Option ℚ) (bedrooms : Option Int)
    (home_price_min home_price_max : Option ℚ) (bathrooms : Option ℚ)
    (square_footage : Option Int) (property_features : Option String)
    (maintenance : Option ℚ) : List String :=
  (searchTemplateParams original_query query latitude longitude distance tax bedrooms
    home_price_min home_price_max bathrooms square_footage property_features
    maintenance).map Prod.fst

/- ------------------------------------------------------------------ -/
/- geocode_location (src/elastic_mcp_server.py lines 95 to 170).        -/
/- ------------------------------------------------------------------ -/

/-- A geographic coordinate pair from the provider geometry.location. -/
structure LatLng where
  lat : ℚ
  lng : ℚ
deriving DecidableEq

/-- One element of the provider results array. emptyDict models the empty
Python dictionary, which is falsy; item g models a nonempty dictionary where
g is none when the geometry key is absent, some none when geometry exists but
has no location key, and some (some ll) when geometry.location is present. -/
inductive ResultItem where
  | emptyDict
  | item (geometry : Option (Option LatLng))
deriving DecidableEq

/-- A decoded provider response: the status string and, when the results key
is present in the JSON, its array. -/
structure GeoResponse where
  status : String
  results : Option (List ResultItem)
deriving DecidableEq

/-- Observable outcome of geocode_location: the text of line 121 with the
provider status, the caught-exception text of line 170, the text of line 148,
or a successful geo point. -/
inductive GeoOutcome where
  | failedStatus (status : String)
  | errorCaught
  | couldNotGeocode
  | geocoded (lat lng : ℚ)
deriving DecidableEq

/-- Line 126 and line 136: data.get with default list-of-empty-dict, then
index zero. A missing results key yields the empty dictionary; a present but
empty results array raises IndexError, modelled as the error case. -/
def firstResult (results : Option (List ResultItem)) : Except Unit ResultItem :=
  match results with
  | none => Except.ok ResultItem.emptyDict
  | some [] => Except.error ()
  | some (x :: _) => Except.ok x

/-- Python falsiness of a result dictionary: only the empty dictionary is
falsy. -/
def isFalsyResult : ResultItem → Bool
  | ResultItem.emptyDict => true
  | ResultItem.item _ => false

/-- Lines 138 to 156: the final check. A falsy result, a result without a
geometry key, or a geometry without a location key gives the could-not-geocode
text; otherwise the geo point is extracted. -/
def finalizeResult : ResultItem → GeoOutcome
  | ResultItem.item (some (some ll)) => GeoOutcome.geocoded ll.lat ll.lng
  | _ => GeoOutcome.couldNotGeocode

/-- Whether a result carries a usable geometry.location value. -/
def hasLocation : ResultItem → Bool
  | ResultItem.item (some (some _)) => true
  | _ => false

/-- Lines 95 to 170: geocode_location, over the decoded primary response and
the decoded response to the fallback request with the Florida suffix. The
returned Boolean records whether the fallback request was issued at all. A
non-OK status returns immediately with the failed text. With an OK status the
first result of the primary response is taken; an IndexError there is caught
by the outer handler. Only a falsy first result triggers the single fallback
request, whose first result then replaces it. The final check produces either
the could-not-geocode text or the geo point. -/
def geocodeLocation (primary fallback : GeoResponse) : GeoOutcome × Bool :=
  if primary.status = "OK" then
    match firstResult primary.results with
    | Except.error _ => (GeoOutcome.errorCaught, false)
    | Except.ok r =>
      if isFalsyResult r then
        match firstResult fallback.results with
        | Except.error _ => (GeoOutcome.errorCaught, true)
        | Except.ok r2 => (finalizeResult r2, true)
      else (finalizeResult r, false)
  else (GeoOutcome.failedStatus primary.status, false)

/- ------------------------------------------------------------------ -/
/- Provisioning and load script (src/ingest_properties.py).             -/
/- ------------------------------------------------------------------ -/

/-- Whether the module-level script of src/ingest_properties.py reaches the
ingestion step or stops before it. -/
inductive LoadOutcome where
  | abortedBeforeIngestion
  | ranIngestion
deriving DecidableEq

/-- The module-level run of src/ingest_properties.py, over the success or
failure of each boundary step. connect_to_elasticsearch catches its own
exceptions and returns None, so a connection failure only surfaces as an
uncaught attribute error when create_properties_index first touches the
client. load_index_mapping, the index delete and create calls,
load_search_template and load_data_set let exceptions escape, which kills the
module-level script. create_search_template catches every exception from
put_script, prints, and lets the run continue, so putScriptOk does not affect
the control flow. -/
def runLoad (connectOk existsIdx deleteOk createOk mappingOk templateFileOk
    putScriptOk dataOk : Bool) : LoadOutcome :=
  if !mappingOk then LoadOutcome.abortedBeforeIngestion
  else if !connectOk then LoadOutcome.abortedBeforeIngestion
  else if existsIdx && !deleteOk then LoadOutcome.abortedBeforeIngestion
  else if !createOk then LoadOutcome.abortedBeforeIngestion
  else if !templateFileOk then LoadOutcome.abortedBeforeIngestion
  else if !dataOk then LoadOutcome.abortedBeforeIngestion
  else LoadOutcome.ranIngestion

/- ------------------------------------------------------------------ -/
/- create_properties_index (src/ingest_properties.py lines 56 to 64).   -/
/- ------------------------------------------------------------------ -/

/-- One index in the store: its mapping body and its documents. -/
structure IdxState where
  mapping : String
  docs : List String
deriving DecidableEq

/-- The store as an association of index names to index states. -/
def idxExists (name : String) (st : List (String × IdxState)) : Bool :=
  st.any (fun p => p.1 == name)

/-- Index deletion removes every entry under the name. -/
def idxDelete (name : String) (st : List (String × IdxState)) :
    List (String × IdxState) :=
  st.filter (fun p => !(p.1 == name))

/-- Index creation adds a fresh empty index under the name. -/
def idxCreate (name : String) (i : IdxState) (st : List (String × IdxState)) :
    List (String × IdxState) :=
  st ++ [(name, i)]

/-- Lines 56 to 64: check existence, delete if present, create fresh with the
supplied mapping body and no documents. -/
def createPropertiesIndex (name : String) (mappingBody : String)
    (st : List (String × IdxState)) : List (String × IdxState) :=
  idxCreate name ⟨mappingBody, []⟩
    (if idxExists name st then idxDelete name st else st)

/- ------------------------------------------------------------------ -/
/- parallel_bulk_load (src/ingest_properties.py lines 98 to 166).       -/
/- ------------------------------------------------------------------ -/

/-- The fields of one bulk item response that the error handler reads, each
possibly absent from the store result. -/
structure BulkItem where
  errorType : Option String
  errorReason : Option String
  docId : Option String
  lineNumber : Option String
deriving DecidableEq

/-- One entry of the failed_docs list of lines 132 to 141. -/
structure ErrorInfo where
  error_type : String
  error_reason : String
  doc_id : String
  line_number : String
deriving DecidableEq

/-- Lines 132 to 141: each missing field defaults to the string unknown. -/
def mkErrorInfo (r : BulkItem) : ErrorInfo :=
  ⟨r.errorType.getD "unknown", r.errorReason.getD "unknown",
   r.docId.getD "unknown", r.lineNumber.getD "unknown"⟩

/-- Lines 101 to 110: generate_actions yields one index action per input
record, carrying only the index name and the source document. -/
def generateActions (indexName : String) (records : List String) :
    List (String × String) :=
  records.map (fun r => (indexName, r))

/-- One step of the result loop of lines 119 to 149: a success increments the
success counter, a failure increments the error counter and appends the
captured error information. -/
def bulkStep (acc : Nat × Nat × List ErrorInfo) (outcome : Bool × BulkItem) :
    Nat × Nat × List ErrorInfo :=
  match acc, outcome with
  | (s, e, docs), (ok, r) =>
    if ok then (s + 1, e, docs) else (s, e + 1, docs ++ [mkErrorInfo r])

/-- Lines 112 to 149: fold the per-action outcome stream that
helpers.parallel_bulk reports, starting from zero counters and an empty
failure list. The stream itself is a boundary input: the store reports one
ok-result pair per submitted action. -/
def parallelBulkLoad (outcomes : List (Bool × BulkItem)) :
    Nat × Nat × List ErrorInfo :=
  outcomes.foldl bulkStep (0, 0, [])

/- ------------------------------------------------------------------ -/
/- Character class facts.                                               -/
/- ------------------------------------------------------------------ -/

theorem ws_not_id {c : Char} (h : isWs c = true) : isIdChar c = false := by
  have h' : c = ' ' ∨ c = '\t' ∨ c = '\n' ∨ c = '\r' ∨ c = '\x0b' ∨ c = '\x0c' := by
    simpa [isWs, or_assoc] using h
  rcases h' with rfl | rfl | rfl | rfl | rfl | rfl <;> decide

theorem id_not_ws {c : Char} (h : isIdChar c = true) : isWs c = false := by
  rcases hw : isWs c with _ | _
  · rfl
  · rw [ws_not_id hw] at h; exact absurd h (by decide)

theorem ws_ne_lbrace {c : Char} (h : isWs c = true) : c ≠ '{' := by
  intro he; subst he; exact absurd h (by decide)

theorem id_ne_lbrace {c : Char} (h : isIdChar c = true) : c ≠ '{' := by
  intro he; subst he; exact absurd h (by decide)

/- ------------------------------------------------------------------ -/
/- Characterization of the scanner.                                     -/
/- ------------------------------------------------------------------ -/

theorem expect2_eq_some {c : Char} {l r : List Char} :
    expect2 c l = some r ↔ l = c :: c :: r := by
  cases l with
  | nil => simp [expect2]
  | cons a t =>
    cases t with
    | nil => simp [expect2]
    | cons b rest =>
      by_cases ha : a = c
      · by_cases hb : b = c
        · subst ha; subst hb; simp [expect2]
        · subst ha; simp [expect2, hb]
      · simp [expect2, ha]

theorem takeWhile_id_of_ws {w2 p2 : List Char} (hw2 : WsRun w2) :
    ((w2 ++ '}' :: p2).takeWhile isIdChar) = [] := by
  cases w2 with
  | nil => simp [List.takeWhile_cons, (by decide : isIdChar '}' = false)]
  | cons d dt =>
    have hd : isIdChar d = false := ws_not_id (hw2 d (List.mem_cons_self d dt))
    simp [List.takeWhile_cons, hd]

theorem dropWhile_id_of_ws {w2 p2 : List Char} (hw2 : WsRun w2) :
    ((w2 ++ '}' :: p2).dropWhile isIdChar) = w2 ++ '}' :: p2 := by
  cases w2 with
  | nil => simp [List.dropWhile_cons, (by decide : isIdChar '}' = false)]
  | cons d dt =>
    have hd : isIdChar d = false := ws_not_id (hw2 d (List.mem_cons_self d dt))
    simp [List.dropWhile_cons, hd]

theorem matchAt_eq_some {l i p : List Char} :
    matchAt l = some (i, p) ↔
      ∃ w1 w2, WsRun w1 ∧ WsRun w2 ∧ IdRun i ∧
        l = '{' :: '{' :: (w1 ++ (i ++ (w2 ++ '}' :: '}' :: p))) := by
  constructor
  · intro h
    unfold matchAt at h
    split at h
    · exact Option.noConfusion h
    · rename_i rest h1
      split at h
      · exact Option.noConfusion h
      · rename_i i0 irest h2
        split at h
        · exact Option.noConfusion h
        · rename_i post h3
          simp only [Option.some.injEq, Prod.mk.injEq] at h
          obtain ⟨hi, hp⟩ := h
          refine ⟨rest.takeWhile isWs,
            ((rest.dropWhile isWs).dropWhile isIdChar).takeWhile isWs, ?_, ?_, ?_, ?_⟩
          · intro x hx; exact List.mem_takeWhile_imp hx
          · intro x hx; exact List.mem_takeWhile_imp hx
          · constructor
            · rw [← hi]; exact List.cons_ne_nil i0 irest
            · intro x hx
              rw [← hi] at hx
              rw [← h2] at hx
              exact List.mem_takeWhile_imp hx
          · have e1 : l = '{' :: '{' :: rest := expect2_eq_some.mp h1
            have e2 : rest.takeWhile isWs ++ rest.dropWhile isWs = rest :=
              List.takeWhile_append_dropWhile isWs rest
            have e3 : i ++ (rest.dropWhile isWs).dropWhile isIdChar = rest.dropWhile isWs := by
              rw [← hi, ← h2]; exact List.takeWhile_append_dropWhile isIdChar _
            have e4 : ((rest.dropWhile isWs).dropWhile isIdChar).takeWhile isWs ++
                '}' :: '}' :: p = (rest.dropWhile isWs).dropWhile isIdChar := by
              have e5 : ((rest.dropWhile isWs).dropWhile isIdChar).dropWhile isWs =
                  '}' :: '}' :: post := expect2_eq_some.mp h3
              rw [hp] at e5
              rw [← e5]
              exact List.takeWhile_append_dropWhile isWs _
            calc l = '{' :: '{' :: rest := e1
              _ = '{' :: '{' :: (rest.takeWhile isWs ++ rest.dropWhile isWs) := by rw [e2]
              _ = '{' :: '{' :: (rest.takeWhile isWs ++
                    (i ++ (rest.dropWhile isWs).dropWhile isIdChar)) := by rw [e3]
              _ = '{' :: '{' :: (rest.takeWhile isWs ++
                    (i ++ (((rest.dropWhile isWs).dropWhile isIdChar).takeWhile isWs ++
                      '}' :: '}' :: p))) := by rw [e4]
  · rintro ⟨w1, w2, hw1, hw2, ⟨hne, hidc⟩, rfl⟩
    obtain ⟨i0, irest, rfl⟩ : ∃ i0 irest, i = i0 :: irest := by
      cases i with
      | nil => exact absurd rfl hne
      | cons i0 irest => exact ⟨i0, irest, rfl⟩
    have hi0 : isIdChar i0 = true := hidc i0 (List.mem_cons_self i0 irest)
    unfold matchAt
    have h1 : expect2 '{' ('{' :: '{' :: (w1 ++ ((i0 :: irest) ++ (w2 ++ '}' :: '}' :: p)))) =
        some (w1 ++ ((i0 :: irest) ++ (w2 ++ '}' :: '}' :: p))) := expect2_eq_some.mpr rfl
    simp only [h1]
    have hdw : (w1 ++ ((i0 :: irest) ++ (w2 ++ '}' :: '}' :: p))).dropWhile isWs =
        (i0 :: irest) ++ (w2 ++ '}' :: '}' :: p) := by
      rw [List.dropWhile_append_of_pos hw1]
      simp [List.dropWhile_cons, id_not_ws hi0]
    simp only [hdw]
    have htw : ((i0 :: irest) ++ (w2 ++ '}' :: '}' :: p)).takeWhile isIdChar =
        i0 :: irest := by
      rw [List.takeWhile_append_of_pos hidc]
      have hz : (w2 ++ '}' :: '}' :: p).takeWhile isIdChar = [] := takeWhile_id_of_ws hw2
      rw [hz, List.append_nil]
    simp only [htw]
    have hdw2 : (((i0 :: irest) ++ (w2 ++ '}' :: '}' :: p)).dropWhile isIdChar).dropWhile isWs =
        '}' :: '}' :: p := by
      rw [List.dropWhile_append_of_pos hidc]
      rw [dropWhile_id_of_ws hw2]
      rw [List.dropWhile_append_of_pos hw2]
      simp [List.dropWhile_cons, (by decide : isWs '}' = false)]
    simp only [hdw2]
    have h3 : expect2 '}' ('}' :: '}' :: p) = some p := expect2_eq_some.mpr rfl
    simp only [h3]

theorem matchAt_length {l i p : List Char} (h : matchAt l = some (i, p)) :
    p.length < l.length := by
  obtain ⟨w1, w2, _, _, _, hl⟩ := matchAt_eq_some.mp h
  rw [hl]
  simp only [List.length_cons, List.length_append]
  omega

/- ------------------------------------------------------------------ -/
/- Stable unfolding equations for findall.                              -/
/- ------------------------------------------------------------------ -/

theorem findallAux_eq (fuel : Nat) : ∀ l : List Char, l.length ≤ fuel →
    findallAux fuel l = findall l := by
  induction fuel using Nat.strong_induction_on with
  | _ fuel ih =>
    intro l hl
    match fuel, l with
    | 0, [] => rfl
    | 0, c :: cs => simp at hl
    | fuel + 1, [] => rfl
    | fuel + 1, c :: cs =>
      have hcs : cs.length ≤ fuel := by simp [List.length_cons] at hl; omega
      show findallAux (fuel + 1) (c :: cs) = findallAux (cs.length + 1) (c :: cs)
      cases hm : matchAt (c :: cs) with
      | some ip =>
        obtain ⟨i, p⟩ := ip
        have hp : p.length ≤ cs.length := by
          have := matchAt_length hm
          simp [List.length_cons] at this
          omega
        simp only [findallAux, hm]
        rw [ih fuel (by omega) p (by omega),
            ih cs.length (by omega) p hp]
      | none =>
        simp only [findallAux, hm]
        rw [ih fuel (by omega) cs hcs, ih cs.length (by omega) cs (le_refl _)]

theorem findall_nil : findall [] = [] := rfl

theorem findall_cons_some {c : Char} {cs i p : List Char}
    (h : matchAt (c :: cs) = some (i, p)) :
    findall (c :: cs) = i :: findall p := by
  show findallAux (cs.length + 1) (c :: cs) = _
  simp only [findallAux, h]
  have hp : p.length ≤ cs.length := by
    have := matchAt_length h
    simp [List.length_cons] at this
    omega
  rw [findallAux_eq cs.length p hp]

theorem findall_cons_none {c : Char} {cs : List Char}
    (h : matchAt (c :: cs) = none) :
    findall (c :: cs) = findall cs := by
  show findallAux (cs.length + 1) (c :: cs) = _
  simp only [findallAux, h]
  exact findallAux_eq cs.length cs (le_refl _)

/- ------------------------------------------------------------------ -/
/- Soundness and completeness of the scan.                              -/
/- ------------------------------------------------------------------ -/

theorem split_after_clean : ∀ (body z pre mid : List Char),
    (∀ c ∈ body, c ≠ '{') → body ++ z = pre ++ '{' :: mid →
    ∃ q, pre = body ++ q ∧ z = q ++ '{' :: mid := by
  intro body
  induction body with
  | nil =>
    intro z pre mid _ h
    exact ⟨pre, rfl, by simpa using h⟩
  | cons b bt ihb =>
    intro z pre mid hbody h
    cases pre with
    | nil =>
      exfalso
      rw [List.nil_append] at h
      injection h with h1 _
      exact hbody b (List.mem_cons_self b bt) h1
    | cons a pre1 =>
      rw [List.cons_append, List.cons_append] at h
      injection h with h1 h2
      obtain ⟨q, hq1, hq2⟩ :=
        ihb z pre1 mid (fun c hc => hbody c (List.mem_cons_of_mem b hc)) h2
      exact ⟨q, by rw [hq1, h1, List.cons_append], hq2⟩

theorem no_overlap {body p2 pre mid : List Char}
    (hbody : ∀ c ∈ body, c ≠ '{')
    (h : '{' :: '{' :: (body ++ '}' :: '}' :: p2) = pre ++ '{' :: '{' :: mid)
    (hpre : pre ≠ []) :
    ∃ q, p2 = q ++ '{' :: '{' :: mid := by
  cases pre with
  | nil => exact absurd rfl hpre
  | cons a pre1 =>
    rw [List.cons_append] at h
    injection h with _ h2
    cases pre1 with
    | nil =>
      exfalso
      rw [List.nil_append] at h2
      injection h2 with _ h3
      cases body with
      | nil =>
        rw [List.nil_append] at h3
        injection h3 with h4 _
        exact absurd h4 (by decide)
      | cons b bt =>
        rw [List.cons_append] at h3
        injection h3 with h4 _
        exact hbody b (List.mem_cons_self b bt) h4
    | cons a2 pre2 =>
      rw [List.cons_append] at h2
      injection h2 with _ h3
      obtain ⟨q, _, hq⟩ := split_after_clean body ('}' :: '}' :: p2) pre2 ('{' :: mid) hbody h3
      cases q with
      | nil =>
        exfalso
        rw [List.nil_append] at hq
        injection hq with h4 _
        exact absurd h4 (by decide)
      | cons g q1 =>
        rw [List.cons_append] at hq
        injection hq with _ hq1
        cases q1 with
        | nil =>
          exfalso
          rw [List.nil_append] at hq1
          injection hq1 with h4 _
          exact absurd h4 (by decide)
        | cons g2 q2 =>
          rw [List.cons_append] at hq1
          injection hq1 with _ hq2
          exact ⟨q2, hq2⟩

theorem mem_findall_occ (k : Nat) : ∀ (s : List Char), s.length ≤ k →
    ∀ n ∈ findall s, IsPlaceholderOcc s n := by
  induction k with
  | zero =>
    intro s hs n hn
    have : s = [] := List.eq_nil_of_length_eq_zero (Nat.le_zero.mp hs)
    subst this
    rw [findall_nil] at hn
    exact absurd hn (List.not_mem_nil n)
  | succ k ih =>
    intro s hs n hn
    cases s with
    | nil =>
      rw [findall_nil] at hn
      exact absurd hn (List.not_mem_nil n)
    | cons c cs =>
      cases hm : matchAt (c :: cs) with
      | some ip =>
        obtain ⟨i, p⟩ := ip
        rw [findall_cons_some hm] at hn
        obtain ⟨w1, w2, hw1, hw2, hid, hl⟩ := matchAt_eq_some.mp hm
        rcases List.mem_cons.mp hn with rfl | htail
        · exact ⟨[], w1, w2, p, hw1, hw2, hid, by rw [List.nil_append]; exact hl⟩
        · have hp : p.length ≤ k := by
            have := matchAt_length hm
            simp [List.length_cons] at this hs
            omega
          obtain ⟨pre2, w1b, w2b, post2, hw1b, hw2b, hidb, hpeq⟩ := ih p hp n htail
          refine ⟨'{' :: '{' :: (w1 ++ (i ++ (w2 ++ '}' :: '}' :: pre2))),
            w1b, w2b, post2, hw1b, hw2b, hidb, ?_⟩
          rw [hl, hpeq]
          simp [List.append_assoc]
      | none =>
        rw [findall_cons_none hm] at hn
        have hcs : cs.length ≤ k := by simp [List.length_cons] at hs; omega
        obtain ⟨pre2, w1b, w2b, post2, hw1b, hw2b, hidb, hpeq⟩ := ih cs hcs n hn
        exact ⟨c :: pre2, w1b, w2b, post2, hw1b, hw2b, hidb, by rw [hpeq, List.cons_append]⟩

theorem occ_mem_findall (k : Nat) : ∀ (s : List Char), s.length ≤ k →
    ∀ n, IsPlaceholderOcc s n → n ∈ findall s := by
  induction k with
  | zero =>
    intro s hs n hocc
    obtain ⟨pre, w1, w2, post, _, _, _, heq⟩ := hocc
    have : s = [] := List.eq_nil_of_length_eq_zero (Nat.le_zero.mp hs)
    subst this
    exact absurd heq.symm (by simp)
  | succ k ih =>
    intro s hs n hocc
    obtain ⟨pre, w1, w2, post, hw1, hw2, hid, heq⟩ := hocc
    cases s with
    | nil => exact absurd heq.symm (by simp)
    | cons c cs =>
      cases hm : matchAt (c :: cs) with
      | some ip =>
        obtain ⟨i, p⟩ := ip
        rw [findall_cons_some hm]
        cases pre with
        | nil =>
          have h2 : matchAt (c :: cs) = some (n, post) :=
            matchAt_eq_some.mpr ⟨w1, w2, hw1, hw2, hid, by rw [heq, List.nil_append]⟩
          rw [hm] at h2
          simp only [Option.some.injEq, Prod.mk.injEq] at h2
          exact List.mem_cons.mpr (Or.inl h2.1.symm)
        | cons e pre1 =>
          obtain ⟨w1m, w2m, hw1m, hw2m, hidm, hlm⟩ := matchAt_eq_some.mp hm
          have hbody : ∀ x ∈ w1m ++ (i ++ w2m), x ≠ '{' := by
            intro x hx
            rcases List.mem_append.mp hx with h | h
            · exact ws_ne_lbrace (hw1m x h)
            · rcases List.mem_append.mp h with h | h
              · exact id_ne_lbrace (hidm.2 x h)
              · exact ws_ne_lbrace (hw2m x h)
          have hlm2 : c :: cs =
              '{' :: '{' :: ((w1m ++ (i ++ w2m)) ++ '}' :: '}' :: p) := by
            rw [hlm]; simp [List.append_assoc]
          have hcomb : '{' :: '{' :: ((w1m ++ (i ++ w2m)) ++ '}' :: '}' :: p) =
              (e :: pre1) ++ '{' :: '{' :: (w1 ++ (n ++ (w2 ++ '}' :: '}' :: post))) :=
            hlm2.symm.trans heq
          obtain ⟨q, hq⟩ := no_overlap hbody hcomb (List.cons_ne_nil e pre1)
          have hoccp : IsPlaceholderOcc p n := ⟨q, w1, w2, post, hw1, hw2, hid, hq⟩
          have hp : p.length ≤ k := by
            have := matchAt_length hm
            simp [List.length_cons] at this hs
            omega
          exact List.mem_cons.mpr (Or.inr (ih p hp n hoccp))
      | none =>
        rw [findall_cons_none hm]
        cases pre with
        | nil =>
          exfalso
          have h2 : matchAt (c :: cs) = some (n, post) :=
            matchAt_eq_some.mpr ⟨w1, w2, hw1, hw2, hid, by rw [heq, List.nil_append]⟩
          rw [hm] at h2
          exact Option.noConfusion h2
        | cons e pre1 =>
          rw [List.cons_append] at heq
          injection heq with _ h2
          have hcs : cs.length ≤ k := by simp [List.length_cons] at hs; omega
          exact ih cs hcs n ⟨pre1, w1, w2, post, hw1, hw2, hid, h2⟩

/- ------------------------------------------------------------------ -/
/- Helper facts about the parameter dictionary.                         -/
/- ------------------------------------------------------------------ -/

theorem mem_pruneNone {l : List (String × Option PVal)} {k : String} {v : PVal} :
    (k, v) ∈ pruneNone l ↔ (k, some v) ∈ l := by
  induction l with
  | nil => simp [pruneNone]
  | cons kv t ih =>
    obtain ⟨k0, o⟩ := kv
    cases o with
    | none =>
      simp only [pruneNone, List.filterMap_cons, Option.map_none'] at ih ⊢
      rw [ih]
      simp [List.mem_cons, Prod.mk.injEq]
    | some v0 =>
      simp only [pruneNone, List.filterMap_cons, Option.map_some'] at ih ⊢
      simp [List.mem_cons, Prod.mk.injEq, ih]

theorem mem_keys_pruneNone {l : List (String × Option PVal)} {k : String} :
    k ∈ (pruneNone l).map Prod.fst ↔ ∃ v, (k, some v) ∈ l := by
  constructor
  · intro h
    obtain ⟨⟨k1, v⟩, hmem, hk⟩ := List.mem_map.mp h
    subst hk
    exact ⟨v, mem_pruneNone.mp hmem⟩
  · rintro ⟨v, hv⟩
    exact List.mem_map.mpr ⟨(k, v), mem_pruneNone.mpr hv, rfl⟩

theorem finalize_of_no_location {r : ResultItem} (h : hasLocation r = false) :
    finalizeResult r = GeoOutcome.couldNotGeocode := by
  cases r with
  | emptyDict => rfl
  | item g =>
    cases g with
    | none => rfl
    | some g2 =>
      cases g2 with
      | none => rfl
      | some ll => exact absurd h (by simp [hasLocation])

theorem bulkFold_spec (outcomes : List (Bool × BulkItem)) :
    ∀ (s e : Nat) (docs : List ErrorInfo),
    outcomes.foldl bulkStep (s, e, docs) =
      (s + outcomes.countP (fun o => o.1),
       e + outcomes.countP (fun o => !o.1),
       docs ++ (outcomes.filter (fun o => !o.1)).map (fun o => mkErrorInfo o.2)) := by
  induction outcomes with
  | nil => intro s e docs; simp
  | cons o t ih =>
    intro s e docs
    obtain ⟨ok, r⟩ := o
    cases ok
    · rw [List.foldl_cons,
        show bulkStep (s, e, docs) (false, r) = (s, e + 1, docs ++ [mkErrorInfo r]) from rfl,
        ih]
      simp [List.countP_cons, List.filter_cons, List.append_assoc]
      omega
    · rw [List.foldl_cons,
        show bulkStep (s, e, docs) (true, r) = (s + 1, e, docs) from rfl, ih]
      simp [List.countP_cons, List.filter_cons]
      omega

/- ------------------------------------------------------------------ -/
/- The claims.                                                          -/
/- ------------------------------------------------------------------ -/

/-- Claim C2: for every template source, the parameter resolver returns
exactly the deduplicated set of identifiers occurring in placeholders of the
form double-open-brace, whitespace, identifier, whitespace,
double-close-brace; each occurring name is reported exactly once, whatever
the surrounding whitespace of its occurrences. -/
theorem claim_C2 (s n : List Char) :
    (n ∈ resolveParams s ↔ IsPlaceholderOcc s n) ∧ (resolveParams s).Nodup := by
  constructor
  · rw [resolveParams, List.mem_dedup]
    exact ⟨fun h => mem_findall_occ s.length s (le_refl _) n h,
           fun h => occ_mem_findall s.length s (le_refl _) n h⟩
  · exact List.nodup_dedup _

/-- Claim C10: parameter discovery returns the error outcome exactly when the
template fetch failed or the sanitized source is the empty string, so an
empty zero-placeholder template is indistinguishable from a fetch failure;
a parameter listing is produced only for a nonempty source. -/
theorem claim_C10 (isPrint : Char → Bool) (fetched : Option String) :
    (getPropertiesTemplateParams isPrint fetched = TemplateParamsOut.errorText ↔
      (getTemplateScript isPrint fetched = none ∨
        getTemplateScript isPrint fetched = some "")) ∧
    getPropertiesTemplateParams isPrint none =
      getPropertiesTemplateParams isPrint (some "") ∧
    (∀ s, getTemplateScript isPrint fetched = some s → s ≠ "" →
      getPropertiesTemplateParams isPrint fetched =
        TemplateParamsOut.params (resolveParams s.data)) := by
  refine ⟨?_, ?_, ?_⟩
  · cases hf : getTemplateScript isPrint fetched with
    | none => simp [getPropertiesTemplateParams, hf]
    | some s =>
      by_cases hs : s = ""
      · subst hs; simp [getPropertiesTemplateParams, hf]
      · simp [getPropertiesTemplateParams, hf, hs]
  · have h1 : getPropertiesTemplateParams isPrint none = TemplateParamsOut.errorText := rfl
    have h2 : getPropertiesTemplateParams isPrint (some "") =
        TemplateParamsOut.errorText := by
      have hs : getTemplateScript isPrint (some "") = some "" := by
        simp [getTemplateScript, sanitizeSource]
      simp [getPropertiesTemplateParams, hs]
    rw [h1, h2]
  · intro s hs hne
    simp [getPropertiesTemplateParams, hs, hne]

/-- Claim C10 witness: a fetched printable two-character template yields a
parameter listing, not the error outcome. -/
theorem claim_C10_witness :
    getPropertiesTemplateParams (fun c => 0x20 ≤ c.toNat && c.toNat ≤ 0x7E)
      (some "ab") = TemplateParamsOut.params (resolveParams "ab".data) :=
  (claim_C10 (fun c => 0x20 ≤ c.toNat && c.toNat ≤ 0x7E) (some "ab")).2.2 "ab"
    (by decide) (by decide)

/-- Claim C9: search_template never reads its query argument; the bound
parameter under the key query always equals the required original_query
argument, and the key query is always present in the parameter set passed to
rendering, whatever optional filters are supplied. -/
theorem claim_C9 (oq q q2 : String) (lat lon : Option ℚ) (dist : Option Int)
    (tax : Option ℚ) (bed : Option Int) (hmin hmax bath : Option ℚ)
    (sqf : Option Int) (pf : Option String) (mnt : Option ℚ) :
    searchTemplateParams oq q lat lon dist tax bed hmin hmax bath sqf pf mnt =
      searchTemplateParams oq q2 lat lon dist tax bed hmin hmax bath sqf pf mnt ∧
    ("query", PVal.vStr oq) ∈
      searchTemplateParams oq q lat lon dist tax bed hmin hmax bath sqf pf mnt := by
  refine ⟨rfl, ?_⟩
  rw [searchTemplateParams, mem_pruneNone]
  exact List.mem_cons_self _ _

/-- Claim C3 counterexample: in a call whose only caller-supplied filter
parameters are the two price bounds, the parameter set passed to rendering
still contains the key query, so it does not exclude every other placeholder
key. -/
theorem claim_C3_cex :
    ¬ (∀ kv ∈ searchTemplateParams "q" "x" none none none none none
        (some 2) (some 4) none none none none,
        kv.1 = "home_price_min" ∨ kv.1 = "home_price_max") := by decide

/-- Claim C3 (amended): when the caller-supplied filter parameters are
exactly home_price_min and home_price_max, the parameter set passed to
rendering is exactly the always-present query binding plus the two price
bounds; every other optional filter key is excluded. -/
theorem claim_C3 (oq q : String) (v1 v2 : ℚ) :
    searchTemplateParams oq q none none none none none (some v1) (some v2)
      none none none none =
      [("query", PVal.vStr oq), ("home_price_min", PVal.vFloat v1),
       ("home_price_max", PVal.vFloat v2)] := rfl

/-- Claim C7 counterexample: the caller-supplied distance is absent, yet the
key distance appears in the parameter set because latitude and longitude are
supplied and the default distance is injected. -/
theorem claim_C7_cex :
    "distance" ∈ paramKeys "q" "x" (some 25) (some (-80)) none none
      none none none none none none none := by decide

/-- Claim C7 (amended): every optional parameter other than distance whose
caller-supplied value is absent never appears as a key in the parameter set
passed to rendering; an absent distance is likewise excluded unless both
latitude and longitude are supplied, in which case the injected default
distance key appears. -/
theorem claim_C7 (oq q : String) (lat lon : Option ℚ) (dist : Option Int)
    (tax : Option ℚ) (bed : Option Int) (hmin hmax bath : Option ℚ)
    (sqf : Option Int) (pf : Option String) (mnt : Option ℚ) :
    (lat = none →
      "latitude" ∉ paramKeys oq q lat lon dist tax bed hmin hmax bath sqf pf mnt) ∧
    (lon = none →
      "longitude" ∉ paramKeys oq q lat lon dist tax bed hmin hmax bath sqf pf mnt) ∧
    (tax = none →
      "tax" ∉ paramKeys oq q lat lon dist tax bed hmin hmax bath sqf pf mnt) ∧
    (bed = none →
      "bedrooms" ∉ paramKeys oq q lat lon dist tax bed hmin hmax bath sqf pf mnt) ∧
    (hmin = none →
      "home_price_min" ∉ paramKeys oq q lat lon dist tax bed hmin hmax bath sqf pf mnt) ∧
    (hmax = none →
      "home_price_max" ∉ paramKeys oq q lat lon dist tax bed hmin hmax bath sqf pf mnt) ∧
    (bath = none →
      "bathrooms" ∉ paramKeys oq q lat lon dist tax bed hmin hmax bath sqf pf mnt) ∧
    (sqf = none →
      "square_footage" ∉ paramKeys oq q lat lon dist tax bed hmin hmax bath sqf pf mnt) ∧
    (pf = none →
      "property_features" ∉ paramKeys oq q lat lon dist tax bed hmin hmax bath sqf pf mnt) ∧
    (mnt = none →
      "maintenance" ∉ paramKeys oq q lat lon dist tax bed hmin hmax bath sqf pf mnt) ∧
    (dist = none → (lat = none ∨ lon = none) →
      "distance" ∉ paramKeys oq q lat lon dist tax bed hmin hmax bath sqf pf mnt) := by
  refine ⟨?_, ?_, ?_, ?_, ?_, ?_, ?_, ?_, ?_, ?_, ?_⟩ <;>
    intro h
  case _ => -- latitude
    subst h
    rw [paramKeys, searchTemplateParams, mem_keys_pruneNone]
    rintro ⟨v, hv⟩
    simp [rawParams, List.mem_cons, Prod.mk.injEq] at hv
  case _ => -- longitude
    subst h
    rw [paramKeys, searchTemplateParams, mem_keys_pruneNone]
    rintro ⟨v, hv⟩
    simp [rawParams, List.mem_cons, Prod.mk.injEq] at hv
  case _ => -- tax
    subst h
    rw [paramKeys, searchTemplateParams, mem_keys_pruneNone]
    rintro ⟨v, hv⟩
    simp [rawParams, List.mem_cons, Prod.mk.injEq] at hv
  case _ => -- bedrooms
    subst h
    rw [paramKeys, searchTemplateParams, mem_keys_pruneNone]
    rintro ⟨v, hv⟩
    simp [rawParams, List.mem_cons, Prod.mk.injEq] at hv
  case _ => -- home_price_min
    subst h
    rw [paramKeys, searchTemplateParams, mem_keys_pruneNone]
    rintro ⟨v, hv⟩
    simp [rawParams, List.mem_cons, Prod.mk.injEq] at hv
  case _ => -- home_price_max
    subst h
    rw [paramKeys, searchTemplateParams, mem_keys_pruneNone]
    rintro ⟨v, hv⟩
    simp [rawParams, List.mem_cons, Prod.mk.injEq] at hv
  case _ => -- bathrooms
    subst h
    rw [paramKeys, searchTemplateParams, mem_keys_pruneNone]
    rintro ⟨v, hv⟩
    simp [rawParams, List.mem_cons, Prod.mk.injEq] at hv
  case _ => -- square_footage
    subst h
    rw [paramKeys, searchTemplateParams, mem_keys_pruneNone]
    rintro ⟨v, hv⟩
    simp [rawParams, List.mem_cons, Prod.mk.injEq] at hv
  case _ => -- property_features
    subst h
    rw [paramKeys, searchTemplateParams, mem_keys_pruneNone]
    rintro ⟨v, hv⟩
    simp [rawParams, List.mem_cons, Prod.mk.injEq] at hv
  case _ => -- maintenance
    subst h
    rw [paramKeys, searchTemplateParams, mem_keys_pruneNone]
    rintro ⟨v, hv⟩
    simp [rawParams, List.mem_cons, Prod.mk.injEq] at hv
  case _ => -- distance, with latitude or longitude absent
    subst h
    intro hlatlon
    rw [paramKeys, searchTemplateParams, mem_keys_pruneNone]
    rintro ⟨v, hv⟩
    rcases hlatlon with h | h <;> subst h <;>
      simp [rawParams, distanceParam, List.mem_cons, Prod.mk.injEq] at hv

/-- Claim C7 witness: with every optional argument absent, none of the
optional keys appears in the parameter set. -/
theorem claim_C7_witness :
    "tax" ∉ paramKeys "q" "x" none none none none none none none none none
      none none ∧
    "distance" ∉ paramKeys "q" "x" none none none none none none none none none
      none none := by
  have h := claim_C7 "q" "x" none none none none none none none none none none none
  exact ⟨h.2.2.1 rfl, h.2.2.2.2.2.2.2.2.2.2 rfl (Or.inl rfl)⟩

/-- Claim C8: if latitude and longitude are supplied and no explicit distance
is supplied, the default distance of 25 miles is injected before rendering;
and every distance value present in the bound set carries the fixed mi unit
suffix. -/
theorem claim_C8 (oq q : String) (lat lon : Option ℚ) (dist : Option Int)
    (tax : Option ℚ) (bed : Option Int) (hmin hmax bath : Option ℚ)
    (sqf : Option Int) (pf : Option String) (mnt : Option ℚ) :
    (lat ≠ none → lon ≠ none → dist = none →
      ("distance", PVal.vStr "25mi") ∈
        searchTemplateParams oq q lat lon dist tax bed hmin hmax bath sqf pf mnt) ∧
    (∀ v, ("distance", v) ∈
        searchTemplateParams oq q lat lon dist tax bed hmin hmax bath sqf pf mnt →
      ∃ s2, v = PVal.vStr (s2 ++ "mi")) := by
  constructor
  · intro hlat hlon hdist
    obtain ⟨la, rfl⟩ := Option.ne_none_iff_exists.mp hlat
    obtain ⟨lo, rfl⟩ := Option.ne_none_iff_exists.mp hlon
    subst hdist
    rw [searchTemplateParams, mem_pruneNone]
    have hd : distanceParam (some la) (some lo) none = some "25" := rfl
    simp only [rawParams, hd, Option.map_some']
    have : PVal.vStr "25mi" = PVal.vStr ("25" ++ "mi") := by decide
    rw [this]
    simp [List.mem_cons]
  · intro v hv
    rw [searchTemplateParams, mem_pruneNone] at hv
    simp [rawParams, List.mem_cons, Prod.mk.injEq] at hv
    obtain ⟨s2, _, hv2⟩ := Option.map_eq_some'.mp hv.symm
    exact ⟨s2, hv2.symm⟩

/-- Claim C8 witness: a concrete call with latitude and longitude and no
distance binds the injected default distance with the mi suffix. -/
theorem claim_C8_witness :
    ("distance", PVal.vStr "25mi") ∈ searchTemplateParams "q" "x" (some 1)
      (some 2) none none none none none none none none none ∧
    ∃ s2, PVal.vStr "25mi" = PVal.vStr (s2 ++ "mi") := by
  have h := claim_C8 "q" "x" (some 1) (some 2) none none none none none none
    none none none
  have h1 := h.1 (by decide) (by decide) rfl
  exact ⟨h1, h.2 (PVal.vStr "25mi") h1⟩

/-- Claim C5 counterexample: the provider returns a non-OK status and no
result is obtainable, yet no fallback request is issued and the outcome is
the failed-status text, not the could-not-geocode outcome the claim
requires. -/
theorem claim_C5_cex :
    (geocodeLocation ⟨"ZERO_RESULTS", some []⟩ ⟨"OK", some []⟩).2 = false ∧
    (geocodeLocation ⟨"ZERO_RESULTS", some []⟩ ⟨"OK", some []⟩).1 ≠
      GeoOutcome.couldNotGeocode := by decide

/-- Claim C5 (amended): the single fallback request is issued exactly when
the primary status is OK and the first primary result is the falsy empty
dictionary, which happens when the results key is absent or its first
element is the empty object. A non-OK status returns the failed-status
outcome immediately with no fallback. An OK status with a present but empty
results array raises IndexError internally, caught into the generic error
outcome. When the finally-considered result after the optional fallback
carries no geometry.location, the outcome is the structured
could-not-geocode text; no path raises to the caller. -/
theorem claim_C5 (p fb : GeoResponse) :
    ((geocodeLocation p fb).2 = true ↔
      (p.status = "OK" ∧ firstResult p.results = Except.ok ResultItem.emptyDict)) ∧
    (p.status ≠ "OK" →
      geocodeLocation p fb = (GeoOutcome.failedStatus p.status, false)) ∧
    (p.status = "OK" → p.results = some [] →
      geocodeLocation p fb = (GeoOutcome.errorCaught, false)) ∧
    (∀ r2, p.status = "OK" → firstResult p.results = Except.ok ResultItem.emptyDict →
      firstResult fb.results = Except.ok r2 → hasLocation r2 = false →
      geocodeLocation p fb = (GeoOutcome.couldNotGeocode, true)) ∧
    (∀ r, p.status = "OK" → firstResult p.results = Except.ok r →
      isFalsyResult r = false → hasLocation r = false →
      geocodeLocation p fb = (GeoOutcome.couldNotGeocode, false)) := by
  refine ⟨?_, ?_, ?_, ?_, ?_⟩
  · constructor
    · intro h2
      by_cases hst : p.status = "OK"
      · cases hfr : firstResult p.results with
        | error u => simp [geocodeLocation, hst, hfr] at h2
        | ok r =>
          cases r with
          | emptyDict => exact ⟨hst, rfl⟩
          | item g =>
            simp [geocodeLocation, hst, hfr, isFalsyResult] at h2
      · simp [geocodeLocation, hst] at h2
    · rintro ⟨hst, hfr⟩
      simp only [geocodeLocation, hst, if_true, hfr]
      cases hfb : firstResult fb.results <;> simp [hfb, isFalsyResult]
  · intro hst
    simp [geocodeLocation, hst]
  · intro hst hres
    simp [geocodeLocation, hst, hres, firstResult]
  · intro r2 hst hfr hfb hloc
    simp only [geocodeLocation, hst, if_true, hfr, hfb, isFalsyResult, if_true]
    rw [finalize_of_no_location hloc]
  · intro r hst hfr hfalsy hloc
    simp only [geocodeLocation, hst, if_true, hfr, hfalsy, Bool.false_eq_true, if_false]
    rw [finalize_of_no_location hloc]

/-- Claim C5 witness: a concrete denied-status response returns the
failed-status outcome with no fallback, and a concrete OK response whose
only result is a nonempty dictionary without geometry yields the
could-not-geocode outcome with no fallback. -/
theorem claim_C5_witness :
    geocodeLocation ⟨"REQUEST_DENIED", none⟩ ⟨"OK", none⟩ =
      (GeoOutcome.failedStatus "REQUEST_DENIED", false) ∧
    geocodeLocation ⟨"OK", some [ResultItem.item none]⟩ ⟨"OK", none⟩ =
      (GeoOutcome.couldNotGeocode, false) :=
  ⟨(claim_C5 ⟨"REQUEST_DENIED", none⟩ ⟨"OK", none⟩).2.1 (by decide),
   (claim_C5 ⟨"OK", some [ResultItem.item none]⟩ ⟨"OK", none⟩).2.2.2.2
     (ResultItem.item none) rfl rfl rfl rfl⟩

/-- Claim C4 counterexample: with every step succeeding except the
search-template registration, the load still reaches ingestion, so a store
error during template registration does not abort the run. -/
theorem claim_C4_cex :
    runLoad true false true true true true false true = LoadOutcome.ranIngestion ∧
    LoadOutcome.ranIngestion ≠ LoadOutcome.abortedBeforeIngestion := by decide

/-- Claim C4 (amended): a connection failure, a failing delete of an
existing index, or a failing index create each aborts the load before
ingestion starts; a failing search-template registration, by contrast, is
caught and logged and the load continues into ingestion. -/
theorem claim_C4 :
    ∀ (connectOk existsIdx deleteOk createOk mappingOk templateFileOk
        putScriptOk dataOk : Bool),
      (connectOk = false ∨ (existsIdx = true ∧ deleteOk = false) ∨
        createOk = false) →
      runLoad connectOk existsIdx deleteOk createOk mappingOk templateFileOk
        putScriptOk dataOk = LoadOutcome.abortedBeforeIngestion := by decide

/-- Claim C4 witness: a concrete connection failure aborts before
ingestion. -/
theorem claim_C4_witness :
    runLoad false false true true true true true true =
      LoadOutcome.abortedBeforeIngestion :=
  claim_C4 false false true true true true true true (Or.inl rfl)

theorem provision_provisioned (name m : String) (st0 : List (String × IdxState))
    (hkeepst : st0.filter (fun p => !(p.1 == name)) = st0) :
    createPropertiesIndex name m (idxCreate name ⟨m, []⟩ st0) =
      idxCreate name ⟨m, []⟩ st0 := by
  have hex : idxExists name (idxCreate name ⟨m, []⟩ st0) = true := by
    simp [idxExists, idxCreate, List.any_append]
  rw [createPropertiesIndex, hex, if_pos rfl]
  simp only [idxCreate, idxDelete, List.filter_append]
  rw [hkeepst]
  simp [List.filter_cons]

/-- Claim C6: provisioning is idempotent by replacement: running
create_properties_index twice with the same name and mapping yields the very
same store as running it once, and after a run the store holds exactly one
index under the name, with the supplied mapping and no documents. -/
theorem claim_C6 (name mappingBody : String) (st : List (String × IdxState)) :
    createPropertiesIndex name mappingBody (createPropertiesIndex name mappingBody st) =
      createPropertiesIndex name mappingBody st ∧
    (createPropertiesIndex name mappingBody st).filter (fun p => p.1 == name) =
      [(name, ⟨mappingBody, []⟩)] := by
  have hbase : ∀ st0 : List (String × IdxState),
      (if idxExists name st0 then idxDelete name st0 else st0).filter
        (fun p => p.1 == name) = [] := by
    intro st0
    by_cases h : idxExists name st0
    · simp only [h, if_true, idxDelete, List.filter_filter]
      rw [List.filter_eq_nil_iff]
      intro a _
      cases hx : a.1 == name <;> simp [hx]
    · simp only [h, if_false]
      rw [List.filter_eq_nil_iff]
      intro a ha
      cases hx : a.1 == name with
      | false => simp [hx]
      | true =>
        exact absurd (by rw [idxExists]; exact List.any_eq_true.mpr ⟨a, ha, hx⟩) h
  have hkeep :
      (if idxExists name st then idxDelete name st else st).filter
        (fun p => !(p.1 == name)) =
      (if idxExists name st then idxDelete name st else st) := by
    rw [List.filter_eq_self]
    intro a ha
    by_cases h : idxExists name st
    · rw [if_pos h] at ha
      simp only [idxDelete] at ha
      exact (List.mem_filter.mp ha).2
    · rw [if_neg h] at ha
      cases hx : a.1 == name with
      | false => simp [hx]
      | true =>
        exact absurd (by rw [idxExists]; exact List.any_eq_true.mpr ⟨a, ha, hx⟩) h
  constructor
  · exact provision_provisioned name mappingBody _ hkeep
  · rw [createPropertiesIndex, idxCreate, List.filter_append, hbase st]
    simp [List.filter_cons]

/-- Claim C1 counterexample: a run with two failing writes whose store
results carry no line number field produces two failure records that share
the line number unknown, so failure records do not reference distinct
original input positions. -/
theorem claim_C1_cex :
    (parallelBulkLoad [(false, ⟨none, none, none, none⟩),
        (false, ⟨none, none, none, none⟩)]).2.2 =
      [⟨"unknown", "unknown", "unknown", "unknown"⟩,
       ⟨"unknown", "unknown", "unknown", "unknown"⟩] ∧
    ¬ ((parallelBulkLoad [(false, ⟨none, none, none, none⟩),
        (false, ⟨none, none, none, none⟩)]).2.2.map ErrorInfo.line_number).Nodup := by
  decide

/-- Claim C1 (amended): over any outcome stream with one ok-result pair per
generated action, successes plus failures equals the number of input
records, and the failure list captures exactly the failing outcomes in
order, each with its fields defaulted to unknown when the store result omits
them; distinctness of the reported source positions is not guaranteed. -/
theorem claim_C1 (records : List String) (indexName : String)
    (outcomes : List (Bool × BulkItem))
    (h : outcomes.length = (generateActions indexName records).length) :
    (parallelBulkLoad outcomes).1 + (parallelBulkLoad outcomes).2.1 =
      records.length ∧
    (parallelBulkLoad outcomes).2.2 =
      (outcomes.filter (fun o => !o.1)).map (fun o => mkErrorInfo o.2) := by
  have hfold := bulkFold_spec outcomes 0 0 []
  rw [parallelBulkLoad, hfold]
  constructor
  · simp only [Nat.zero_add]
    have hlen : outcomes.length = records.length := by
      rw [h]; simp [generateActions]
    rw [← hlen]
    have := List.length_eq_countP_add_countP (fun o : Bool × BulkItem => o.1) outcomes
    simp only [this]
    simp [List.countP]
  · simp

/-- Claim C1 witness: a one-record run with one successful write reports one
success, no failure and an empty failure list. -/
theorem claim_C1_witness :
    (parallelBulkLoad [(true, BulkItem.mk none none none none)]).1 +
      (parallelBulkLoad [(true, BulkItem.mk none none none none)]).2.1 =
      (["doc1"] : List String).length ∧
    (parallelBulkLoad [(true, BulkItem.mk none none none none)]).2.2 =
      ([(true, BulkItem.mk none none none none)].filter (fun o => !o.1)).map
        (fun o => mkErrorInfo o.2) :=
  claim_C1 ["doc1"] "properties" [(true, BulkItem.mk none none none none)] rfl

end ElasticMcp
